import Mathlib

/-!
Shallow embedding of the OpenCast Raycast extension (TypeScript sources:
`src/api.ts`, `src/ask-opencode.tsx`, `src/list-opencode-sessions.tsx`) and
proofs about its behaviour.  Where the repository ships two variants of a
file, the embedding follows the variant with shared-secret authentication
and provider/model support, which is the one the claims cite.

Modelling conventions:
- JavaScript `undefined`-able string fields become `Option String`.
- JavaScript truthiness of a string is `s ≠ ""`; of an optional string it is
  `some s` with `s ≠ ""`; of a number it is `n ≠ 0`.
- Timestamps are the epoch-millisecond values produced by
  `new Date(x).getTime()`, modelled directly as `Int`.
- `Array.prototype.sort` (stable since ES2019) with a consistent comparator
  is modelled by a stable insertion sort with the comparator's order.
- Network effects are modelled by a mock-server record and an explicit trace
  of events (state writes and outgoing calls) in program order.
-/

/-- JavaScript truthiness of an optional string: `undefined` and `""` are
falsy, every other string is truthy. -/
def optTruthy : Option String → Bool
  | some s => s ≠ ""
  | none => false

/-- JavaScript `a || b` on optional strings: yields `a` when truthy,
otherwise `b` (which may itself be `undefined`). -/
def jsOr (a b : Option String) : Option String :=
  if optTruthy a then a else b

/-- JavaScript template interpolation of a possibly-`undefined` string:
`undefined` renders as the literal text `"undefined"`. -/
def jsToString : Option String → String
  | some s => s
  | none => "undefined"

/-- One message part (`MessagePart` in `src/api.ts`).  All fields are
optional so that malformed or partial part objects are representable. -/
structure MessagePart where
  type : Option String
  content : Option String := none
  text : Option String := none
  deriving DecidableEq, Repr

/-- Contribution of a single part inside `extractTextFromParts`
(`src/api.ts`): the body of the arrow function passed to `.map`.
`part.text || part.content || ""` is the JS falsy-fallback chain; parts of
type `"tool-invocation"`, `"tool-result"` and every other type return
the empty string. -/
def partContribution (p : MessagePart) : String :=
  if p.type = some "text" then
    (jsOr (jsOr p.text p.content) (some "")).getD ""
  else if p.type = some "tool-invocation" ∨ p.type = some "tool-result" then
    ""
  else
    ""

/-- `extractTextFromParts` (`src/api.ts`): map each part to its
contribution, drop falsy (empty) strings (`.filter(Boolean)`), join with a
newline (`.join("\n")`). -/
def extractTextFromParts (parts : List MessagePart) : String :=
  String.intercalate "\n" ((parts.map partContribution).filter (fun s => s ≠ ""))

/-- Per-part contribution as the words of claim C1 describe it: a `"text"`
part contributes its `text` field, or its `content` field if `text` is
ABSENT, or `""` if both are absent; every other type contributes `""`. -/
def claimContributionC1 (p : MessagePart) : String :=
  if p.type = some "text" then
    match p.text with
    | some t => t
    | none =>
      match p.content with
      | some c => c
      | none => ""
  else
    ""

/-- Whole-list extraction as claim C1 states it: per-part contributions via
`claimContributionC1`, empty contributions dropped, the rest joined with a
single newline. -/
def claimExtractC1 (parts : List MessagePart) : String :=
  String.intercalate "\n" ((parts.map claimContributionC1).filter (fun s => s ≠ ""))

/-- Per-part contribution as amended: the fallback from `text` to `content`
(and from `content` to `""`) fires when the field is absent OR empty. -/
def amendedContributionC1 (p : MessagePart) : String :=
  if p.type = some "text" then
    match p.text with
    | some t =>
      if t ≠ "" then t
      else
        match p.content with
        | some c => c
        | none => ""
    | none =>
      match p.content with
      | some c => c
      | none => ""
  else
    ""

/-- Whole-list extraction as the amended claim C1 states it. -/
def amendedExtractC1 (parts : List MessagePart) : String :=
  String.intercalate "\n" ((parts.map amendedContributionC1).filter (fun s => s ≠ ""))

/-- A session (`Session` in `src/api.ts`).  `createdAtMillis` and
`updatedAtMillis` are the epoch-millisecond values of the server's ISO
timestamp strings, i.e. the values `new Date(s.createdAt).getTime()` /
`new Date(s.updatedAt).getTime()` compute. -/
structure Session where
  id : String
  title : Option String := none
  createdAtMillis : Int := 0
  updatedAtMillis : Int := 0
  deriving DecidableEq, Repr

/-- One step of the stable sort in `loadSessions`
(`src/list-opencode-sessions.tsx`): insert a session into an
already-sorted (descending by `updatedAt`) list.  The comparator is
`(a, b) => new Date(b.updatedAt).getTime() - new Date(a.updatedAt).getTime()`,
so `s` goes in front of the first element `t` with
`comparator s t ≤ 0`, i.e. `t.updatedAtMillis ≤ s.updatedAtMillis`;
a stable sort keeps earlier-listed elements in front on ties, which this
placement realises because `s` originates earlier in the list than
everything already inserted. -/
def insertByUpdatedDesc (s : Session) : List Session → List Session
  | [] => [s]
  | t :: ts =>
    if t.updatedAtMillis ≤ s.updatedAtMillis then s :: t :: ts
    else t :: insertByUpdatedDesc s ts

/-- The sort performed by `loadSessions`:
`sessionList.sort((a, b) => new Date(b.updatedAt).getTime() - new Date(a.updatedAt).getTime())`,
modelled as the (unique) stable descending sort by `updatedAtMillis`. -/
def sortSessionsByUpdatedDesc (l : List Session) : List Session :=
  l.foldr insertByUpdatedDesc []

/-- Raycast preferences of the extension (`Preferences` in `src/api.ts`,
authenticated variant): host, port and the optional shared secret. -/
structure Preferences where
  serverHost : String
  serverPort : String
  serverPassword : Option String := none
  deriving DecidableEq, Repr

/-- `getBaseUrl` (`src/api.ts`): empty preference strings are falsy and
fall back to the defaults `127.0.0.1` / `4096`. -/
def getBaseUrl (prefs : Preferences) : String :=
  let host := if prefs.serverHost ≠ "" then prefs.serverHost else "127.0.0.1"
  let port := if prefs.serverPort ≠ "" then prefs.serverPort else "4096"
  "http://" ++ host ++ ":" ++ port

/-- UTF-8 encoding of one character (code point to bytes), as performed by
Node's `Buffer.from(string)` with its default `utf8` encoding. -/
def utf8EncodeChar (c : Char) : List Nat :=
  let n := c.toNat
  if n < 0x80 then [n]
  else if n < 0x800 then [0xC0 + n / 64, 0x80 + n % 64]
  else if n < 0x10000 then [0xE0 + n / 4096, 0x80 + n / 64 % 64, 0x80 + n % 64]
  else [0xF0 + n / 262144, 0x80 + n / 4096 % 64, 0x80 + n / 64 % 64, 0x80 + n % 64]

/-- UTF-8 bytes of a string (each byte a `Nat` below 256). -/
def utf8Bytes (s : String) : List Nat :=
  s.data.flatMap utf8EncodeChar

/-- The standard base64 alphabet. -/
def base64Alphabet : List Char :=
  "ABCDEFGHIJKLMNOPQRSTUVWXYZabcdefghijklmnopqrstuvwxyz0123456789+/".data

/-- Character of the base64 alphabet at a 6-bit index. -/
def base64Digit (n : Nat) : Char :=
  base64Alphabet.getD n 'A'

/-- Base64 encoding of a byte list (standard alphabet, `=` padding), as
computed by Node's `buffer.toString("base64")`. -/
def base64Chars : List Nat → List Char
  | [] => []
  | [a] => [base64Digit (a / 4), base64Digit (a % 4 * 16), '=', '=']
  | [a, b] => [base64Digit (a / 4), base64Digit (a % 4 * 16 + b / 16),
      base64Digit (b % 16 * 4), '=']
  | a :: b :: c :: rest =>
    base64Digit (a / 4) :: base64Digit (a % 4 * 16 + b / 16) ::
      base64Digit (b % 16 * 4 + c / 64) :: base64Digit (c % 64) ::
        base64Chars rest

/-- `Buffer.from(s).toString("base64")`: UTF-8 encode, then base64. -/
def base64OfString (s : String) : String :=
  String.mk (base64Chars (utf8Bytes s))

/-- `OpenCodeAPI.getHeaders` (`src/api.ts`, authenticated variant): always a
`Content-Type` header; when `prefs.serverPassword` is truthy (present and
non-empty), additionally an `Authorization` header carrying
`Basic ` followed by the base64 encoding of `opencode:<password>`. -/
def getHeaders (prefs : Preferences) : List (String × String) :=
  let base := [("Content-Type", "application/json")]
  match prefs.serverPassword with
  | some pw =>
    if pw ≠ "" then
      base ++ [("Authorization", "Basic " ++ base64OfString ("opencode:" ++ pw))]
    else base
  | none => base

/-- The eight operations of `OpenCodeAPI` (`src/api.ts`). -/
inductive ApiOperation
  | checkHealth
  | listSessions
  | createSession
  | getSession
  | deleteSession
  | sendMessage
  | getMessages
  | abortSession
  deriving DecidableEq, Repr

/-- Request headers sent by each `OpenCodeAPI` operation.  In the
authenticated variant every method passes `headers: this.getHeaders()`
to `fetch`, so each branch is `getHeaders prefs`. -/
def operationHeaders (op : ApiOperation) (prefs : Preferences) : List (String × String) :=
  match op with
  | .checkHealth => getHeaders prefs
  | .listSessions => getHeaders prefs
  | .createSession => getHeaders prefs
  | .getSession => getHeaders prefs
  | .deleteSession => getHeaders prefs
  | .sendMessage => getHeaders prefs
  | .getMessages => getHeaders prefs
  | .abortSession => getHeaders prefs

/-- First header value with the given name, if any. -/
def lookupHeader (name : String) (headers : List (String × String)) : Option String :=
  (headers.find? (fun kv => kv.1 == name)).map (fun kv => kv.2)

/-- URL built by `OpenCodeAPI.getMessages` (`src/api.ts`): the session's
message path, with `?limit=N` appended only under `if (limit)` — i.e. only
when the optional numeric argument is present and truthy (non-zero). -/
def getMessagesUrl (prefs : Preferences) (sessionId : String) (limit : Option Int) : String :=
  let u := getBaseUrl prefs ++ "/session/" ++ sessionId ++ "/message"
  match limit with
  | some n => if n ≠ 0 then u ++ "?limit=" ++ toString n else u
  | none => u

/-- A model descriptor (`Model` in the provider directory). -/
structure ModelInfo where
  id : String
  name : String
  deriving DecidableEq, Repr

/-- A provider (`Provider` in `src/api.ts`): identifier, display name and
its model mapping.  The association list preserves the object's key order,
which is what `Object.keys(provider.models)` iterates. -/
structure Provider where
  id : String
  name : String
  models : List (String × ModelInfo) := []
  deriving DecidableEq, Repr

/-- Response of the provider-directory endpoint (`api.listProviders`):
the providers plus the `default` map from provider id to default model id
(modelled as an association list). -/
structure ProvidersResponse where
  providers : List Provider
  defaultMap : List (String × String) := []
  deriving DecidableEq, Repr

/-- JavaScript property lookup `m[k]` on a string-to-string map:
`undefined` when the key is missing. -/
def lookupStr (m : List (String × String)) (k : String) : Option String :=
  (m.find? (fun kv => kv.1 == k)).map (fun kv => kv.2)

/-- Model selection computed by `fetchProviders`
(`src/ask-opencode.tsx` and `src/list-opencode-sessions.tsx`): for the
first provider, `response.default[firstProvider.id] ||
Object.keys(firstProvider.models)[0]`, interpolated into
`` `${firstProvider.id}/${defaultModelId}` ``; `none` when there is no
provider (selection left unset). -/
def fetchProvidersSelection (r : ProvidersResponse) : Option String :=
  match r.providers with
  | [] => none
  | p :: _ =>
    let defaultModelId := jsOr (lookupStr r.defaultMap p.id) ((p.models.map (fun kv => kv.1)).head?)
    some (p.id ++ "/" ++ jsToString defaultModelId)

/-- Selection as the words of claim C5 describe it: the provider's
CONFIGURED default model identifier whenever the default map has an entry
for the provider, otherwise the first model identifier of its mapping. -/
def claimSelectionC5 (r : ProvidersResponse) : Option String :=
  match r.providers with
  | [] => none
  | p :: _ =>
    match lookupStr r.defaultMap p.id with
    | some d => some (p.id ++ "/" ++ d)
    | none => some (p.id ++ "/" ++ ((p.models.map (fun kv => kv.1)).head?.getD ""))

/-- Role of a conversation entry (`"user" | "assistant"`). -/
inductive Role
  | user
  | assistant
  deriving DecidableEq, Repr

/-- `ConversationMessage` (`src/ask-opencode.tsx`): the local transcript
entry, role plus flattened text content. -/
structure ConversationMessage where
  role : Role
  content : String
  deriving DecidableEq, Repr

/-- Provider/model selection forwarded with a message
(`{ providerID, modelID }`). -/
structure ModelRef where
  providerID : String
  modelID : String
  deriving DecidableEq, Repr

/-- The model-string split of `sendMessage`/`handleSubmit`
(`src/ask-opencode.tsx`):
`const [providerID, ...modelParts] = modelStr.split("/")` with
`modelID: modelParts.join("/")`. -/
def parseModel (modelStr : String) : ModelRef :=
  match modelStr.splitOn "/" with
  | [] => ⟨"", ""⟩
  | p :: rest => ⟨p, String.intercalate "/" rest⟩

/-- `if (modelStr) { ... modelObj = {providerID, modelID} }`: the optional
structured selection, present only when the model string is truthy. -/
def jsModelObj (modelStr : Option String) : Option ModelRef :=
  match modelStr with
  | some m => if m ≠ "" then some (parseModel m) else none
  | none => none

/-- JavaScript `String.prototype.trim`, character-list based: strip leading
and trailing whitespace. -/
def jsTrim (s : String) : String :=
  String.mk (((s.data.dropWhile Char.isWhitespace).reverse.dropWhile Char.isWhitespace).reverse)

/-- JavaScript `s.slice(0, n)`: the first `n` characters. -/
def jsSliceTo (s : String) (n : Nat) : String :=
  String.mk (s.data.take n)

/-- Outgoing network call of the orchestrator, with the request data the
claims talk about. -/
inductive NetCall
  | checkHealth
  | createSession (title : Option String)
  | sendMessage (sessionId : String) (prompt : String) (model : Option ModelRef)
  deriving DecidableEq, Repr

/-- One step of an orchestrator run, in program order: either a state
write (`setConversation` / `setCurrentSession`) or an outgoing call. -/
inductive Event
  | net (c : NetCall)
  | setConversation (conv : List ConversationMessage)
  | setCurrentSession (s : Session)
  deriving DecidableEq, Repr

/-- The network calls of an event trace, in order. -/
def netCallsOf (evs : List Event) : List NetCall :=
  evs.filterMap (fun e =>
    match e with
    | .net c => some c
    | _ => none)

/-- The titles of the `createSession` calls of an event trace, in order. -/
def createTitles (evs : List Event) : List (Option String) :=
  evs.filterMap (fun e =>
    match e with
    | .net (.createSession t) => some t
    | _ => none)

/-- Mock of the OpenCode server for one orchestrator run: whether each
request succeeds at the HTTP level, the health payload, the session the
server assigns on create, and the parts of the reply message. -/
structure MockServer where
  healthOk : Bool := true
  healthy : Bool := true
  version : String := ""
  createOk : Bool := true
  createdSession : Session := ⟨"", none, 0, 0⟩
  sendOk : Bool := true
  responseParts : List MessagePart := []
  deriving Repr

/-- Component state of the `AskOpenCode` command
(`src/ask-opencode.tsx`): the `conversation`, `currentSession` and
`selectedModel` React states the orchestrator writes. -/
structure AskState where
  conversation : List ConversationMessage := []
  currentSession : Option Session := none
  selectedModel : Option String := none
  deriving DecidableEq, Repr

/-- Result reported by an orchestrator operation: a pre-network validation
failure toast, an error toast from the catch block (carrying the message),
or success. -/
inductive Outcome
  | validationFailure
  | errorMsg (msg : String)
  | success
  deriving DecidableEq, Repr

/-- `handleSubmit` of the `AskOpenCode` command (`src/ask-opencode.tsx`,
provider-aware variant), the start-conversation operation, as a function
of the mock server, current component state and the submitted form values.
Returns the final state, the trace of events in program order, and the
reported outcome.  Error messages abstract the thrown messages (the HTTP
status text is not modelled). -/
def handleSubmit (env : MockServer) (st : AskState) (prompt : String)
    (modelToUse : Option String) : AskState × List Event × Outcome :=
  if jsTrim prompt = "" then
    (st, [], .validationFailure)
  else
    let st1 := { st with selectedModel := modelToUse }
    if env.healthOk = false then
      (st1, [.net .checkHealth], .errorMsg "Health check failed")
    else if env.healthy = false then
      (st1, [.net .checkHealth], .errorMsg "OpenCode server is not healthy")
    else
      let title := "Raycast: " ++ jsSliceTo prompt 50
      if env.createOk = false then
        (st1, [.net .checkHealth, .net (.createSession (some title))],
          .errorMsg "Failed to create session")
      else
        let session := env.createdSession
        let st2 := { st1 with currentSession := some session }
        let userMessage : ConversationMessage := ⟨.user, prompt⟩
        let st3 := { st2 with conversation := [userMessage] }
        let modelObj := jsModelObj modelToUse
        let evs :=
          [.net .checkHealth, .net (.createSession (some title)),
            .setCurrentSession session, .setConversation [userMessage],
            .net (.sendMessage session.id prompt modelObj)]
        if env.sendOk = false then
          (st3, evs, .errorMsg "Failed to send message")
        else
          let responseText := extractTextFromParts env.responseParts
          let assistantMessage : ConversationMessage :=
            ⟨.assistant, if responseText ≠ "" then responseText else "No response received"⟩
          let newConversation := [userMessage, assistantMessage]
          ({ st3 with conversation := newConversation },
            evs ++ [.setConversation newConversation], .success)

/-- `sendMessage` of the `AskOpenCode` command (`src/ask-opencode.tsx`,
lines 182–203): throws when there is no active session, otherwise appends
the user entry optimistically, issues the send, and appends the assistant
entry (extraction or `"No response"`) only after a successful response.
The catch of a failed send lives in the caller; the failure is returned
as an error outcome with the state as the function left it. -/
def sendMessageFlow (env : MockServer) (st : AskState) (prompt : String)
    (modelStr : Option String) : AskState × List Event × Outcome :=
  match st.currentSession with
  | none => (st, [], .errorMsg "No active session")
  | some session =>
    let userEntry : ConversationMessage := ⟨.user, prompt⟩
    let conv1 := st.conversation ++ [userEntry]
    let st1 := { st with conversation := conv1 }
    let modelObj := jsModelObj modelStr
    let evs := [.setConversation conv1, .net (.sendMessage session.id prompt modelObj)]
    if env.sendOk = false then
      (st1, evs, .errorMsg "Failed to send message")
    else
      let responseText := extractTextFromParts env.responseParts
      let conv2 := conv1 ++ [⟨.assistant, if responseText ≠ "" then responseText else "No response"⟩]
      ({ st1 with conversation := conv2 }, evs ++ [.setConversation conv2], .success)

/-- The continue-conversation operation: `handleSubmit` of the
`ContinueConversation` form (`src/ask-opencode.tsx`) composed with the
`sendMessage` callback above — blank prompts fail validation before any
work; otherwise `onModelChange(values.model)` runs and the message is
sent; an error thrown by the send is caught and surfaced as a toast. -/
def continueConversation (env : MockServer) (st : AskState) (prompt : String)
    (modelStr : Option String) : AskState × List Event × Outcome :=
  if jsTrim prompt = "" then
    (st, [], .validationFailure)
  else
    sendMessageFlow env { st with selectedModel := modelStr } prompt modelStr

theorem partContribution_eq_amendedContribution (p : MessagePart) :
    partContribution p = amendedContributionC1 p := by
  rcases p with ⟨ty, co, te⟩
  simp only [partContribution, amendedContributionC1]
  by_cases hty : ty = some "text"
  · simp only [hty, if_pos rfl]
    rcases te with _ | t
    · rcases co with _ | c
      · simp [jsOr, optTruthy]
      · by_cases hc : c = "" <;> simp [jsOr, optTruthy, hc]
    · by_cases ht : t = ""
      · rcases co with _ | c
        · simp [jsOr, optTruthy, ht]
        · by_cases hc : c = "" <;> simp [jsOr, optTruthy, ht, hc]
      · simp [jsOr, optTruthy, ht]
  · simp [hty]

theorem insertByUpdatedDesc_perm (s : Session) (l : List Session) :
    (insertByUpdatedDesc s l).Perm (s :: l) := by
  induction l with
  | nil => rfl
  | cons t ts ih =>
    by_cases h : t.updatedAtMillis ≤ s.updatedAtMillis
    · simp [insertByUpdatedDesc, h]
    · simp only [insertByUpdatedDesc, if_neg h]
      exact (ih.cons t).trans (List.Perm.swap s t ts)

theorem sortSessions_perm (l : List Session) :
    (sortSessionsByUpdatedDesc l).Perm l := by
  induction l with
  | nil => rfl
  | cons x xs ih =>
    simp only [sortSessionsByUpdatedDesc, List.foldr_cons]
    exact (insertByUpdatedDesc_perm x _).trans (ih.cons x)

theorem pairwise_insertByUpdatedDesc (s : Session) (l : List Session)
    (hl : l.Pairwise (fun a b => b.updatedAtMillis ≤ a.updatedAtMillis)) :
    (insertByUpdatedDesc s l).Pairwise (fun a b => b.updatedAtMillis ≤ a.updatedAtMillis) := by
  induction l with
  | nil => simp [insertByUpdatedDesc]
  | cons t ts ih =>
    rcases List.pairwise_cons.mp hl with ⟨ht, hts⟩
    by_cases h : t.updatedAtMillis ≤ s.updatedAtMillis
    · simp only [insertByUpdatedDesc, if_pos h]
      refine List.Pairwise.cons ?_ hl
      intro y hy
      rcases List.mem_cons.mp hy with rfl | hy
      · exact h
      · exact le_trans (ht y hy) h
    · simp only [insertByUpdatedDesc, if_neg h]
      refine List.Pairwise.cons ?_ (ih hts)
      intro y hy
      rcases List.mem_cons.mp ((insertByUpdatedDesc_perm s ts).mem_iff.mp hy) with rfl | hy
      · exact le_of_lt (lt_of_not_le h)
      · exact ht y hy

theorem sortSessions_pairwise (l : List Session) :
    (sortSessionsByUpdatedDesc l).Pairwise (fun a b => b.updatedAtMillis ≤ a.updatedAtMillis) := by
  induction l with
  | nil => simp [sortSessionsByUpdatedDesc]
  | cons x xs ih =>
    simp only [sortSessionsByUpdatedDesc, List.foldr_cons]
    exact pairwise_insertByUpdatedDesc x _ ih

theorem filter_insertByUpdatedDesc_ne (s : Session) (l : List Session) (v : Int)
    (hv : s.updatedAtMillis ≠ v) :
    (insertByUpdatedDesc s l).filter (fun x => decide (x.updatedAtMillis = v)) =
      l.filter (fun x => decide (x.updatedAtMillis = v)) := by
  induction l with
  | nil => simp [insertByUpdatedDesc, hv]
  | cons t ts ih =>
    by_cases h : t.updatedAtMillis ≤ s.updatedAtMillis
    · simp [insertByUpdatedDesc, h, List.filter_cons, hv]
    · simp only [insertByUpdatedDesc, if_neg h]
      simp [List.filter_cons, ih]

theorem filter_insertByUpdatedDesc_eq (s : Session) (l : List Session)
    (hl : l.Pairwise (fun a b => b.updatedAtMillis ≤ a.updatedAtMillis)) :
    (insertByUpdatedDesc s l).filter (fun x => decide (x.updatedAtMillis = s.updatedAtMillis)) =
      s :: l.filter (fun x => decide (x.updatedAtMillis = s.updatedAtMillis)) := by
  induction l with
  | nil => simp [insertByUpdatedDesc]
  | cons t ts ih =>
    rcases List.pairwise_cons.mp hl with ⟨ht, hts⟩
    by_cases h : t.updatedAtMillis ≤ s.updatedAtMillis
    · simp [insertByUpdatedDesc, h, List.filter_cons]
    · have hst : ¬t.updatedAtMillis = s.updatedAtMillis := fun e => h (le_of_eq e)
      simp only [insertByUpdatedDesc, if_neg h, List.filter_cons]
      simp [hst, ih hts]

theorem sortSessions_filter (l : List Session) (v : Int) :
    (sortSessionsByUpdatedDesc l).filter (fun x => decide (x.updatedAtMillis = v)) =
      l.filter (fun x => decide (x.updatedAtMillis = v)) := by
  induction l with
  | nil => rfl
  | cons x xs ih =>
    have hstep : sortSessionsByUpdatedDesc (x :: xs) =
        insertByUpdatedDesc x (sortSessionsByUpdatedDesc xs) := rfl
    rw [hstep]
    by_cases hx : x.updatedAtMillis = v
    · subst hx
      rw [filter_insertByUpdatedDesc_eq x (sortSessionsByUpdatedDesc xs)
        (sortSessions_pairwise xs), ih]
      simp [List.filter_cons]
    · rw [filter_insertByUpdatedDesc_ne x (sortSessionsByUpdatedDesc xs) v hx, ih]
      simp [List.filter_cons, hx]

/-- Claim C4: for every fetched session list, `loadSessions` exposes a
permutation of the list, sorted descending by last-update timestamp, with
equal-timestamp sessions kept in original server order (stable sort: for
every timestamp, filtering the output to that timestamp yields exactly the
input's sessions with that timestamp in input order); in particular for
updates [2024-01-01, 2024-01-03, 2024-01-02] the output order is
[second, third, first]. -/
theorem c4_sessionSortStableDescending :
    (∀ l : List Session,
      (sortSessionsByUpdatedDesc l).Perm l ∧
      (sortSessionsByUpdatedDesc l).Pairwise
        (fun a b => b.updatedAtMillis ≤ a.updatedAtMillis) ∧
      ∀ v : Int,
        (sortSessionsByUpdatedDesc l).filter (fun x => decide (x.updatedAtMillis = v)) =
          l.filter (fun x => decide (x.updatedAtMillis = v))) ∧
    sortSessionsByUpdatedDesc
        [⟨"first", none, 0, 1704067200000⟩, ⟨"second", none, 0, 1704240000000⟩,
          ⟨"third", none, 0, 1704153600000⟩] =
      [⟨"second", none, 0, 1704240000000⟩, ⟨"third", none, 0, 1704153600000⟩,
        ⟨"first", none, 0, 1704067200000⟩] := by
  refine ⟨fun l => ⟨sortSessions_perm l, sortSessions_pairwise l, sortSessions_filter l⟩, ?_⟩
  rfl

/-- Claim C1, amended: `extractTextFromParts` is total and returns the
newline-join of the non-empty contributions, where a `"text"` part
contributes its `text` field if present and non-empty, else its `content`
field if present and non-empty, else the empty string (the fallback is by
falsiness, not absence), and a part of type `"tool-invocation"`,
`"tool-result"` or any other type contributes the empty string; empty
contributions are dropped before joining. -/
theorem c1_extractAmended (parts : List MessagePart) :
    extractTextFromParts parts = amendedExtractC1 parts := by
  have hfun : partContribution = amendedContributionC1 :=
    funext partContribution_eq_amendedContribution
  simp only [extractTextFromParts, amendedExtractC1, hfun]

/-- Claim C1, counterexample to the claim as stated: for a `"text"` part
whose `text` field is present but empty and whose `content` field is
`"hi"`, the code contributes `"hi"` while the claim's absence-based rule
contributes the (dropped) empty string, so the outputs differ. -/
theorem c1_counterexample :
    extractTextFromParts [⟨some "text", some "hi", some ""⟩] = "hi" ∧
    claimExtractC1 [⟨some "text", some "hi", some ""⟩] = "" ∧
    extractTextFromParts [⟨some "text", some "hi", some ""⟩] ≠
      claimExtractC1 [⟨some "text", some "hi", some ""⟩] := by
  refine ⟨rfl, rfl, ?_⟩
  decide

/-- Claim C10: for a `"text"` part whose `text` field is present but equal
to the empty string and whose `content` field is a non-empty string, the
extractor contributes the `content` field — the fallback from `text` to
`content` is by falsiness of the value, not by absence of the field. -/
theorem c10_falsyTextFallback (c : String) (hc : c ≠ "") :
    partContribution ⟨some "text", some c, some ""⟩ = c ∧
    extractTextFromParts [⟨some "text", some c, some ""⟩] = c := by
  have h1 : partContribution ⟨some "text", some c, some ""⟩ = c := by
    simp [partContribution, jsOr, optTruthy, hc]
  refine ⟨h1, ?_⟩
  simp only [extractTextFromParts, List.map_cons, List.map_nil, h1]
  rw [List.filter_cons]
  simp only [hc, decide_not]
  rfl

theorem c10_witness :
    ("hi" : String) ≠ "" ∧
    (partContribution ⟨some "text", some "hi", some ""⟩ = "hi" ∧
      extractTextFromParts [⟨some "text", some "hi", some ""⟩] = "hi") :=
  ⟨by decide, c10_falsyTextFallback "hi" (by decide)⟩

/-- Claim C2: for every non-blank prompt, when the (mock) server is
reachable and reports healthy and the create/send requests succeed, the
start-conversation operation ends successfully with a transcript of
exactly two entries in order [user, assistant]; the user entry's content
is the prompt and the assistant entry's content is the extraction of the
reply's parts, replaced by the placeholder `"No response received"` when
the extraction is empty. -/
theorem c2_startConversationTwoEntries (env : MockServer) (st : AskState)
    (prompt : String) (modelToUse : Option String)
    (hp : jsTrim prompt ≠ "") (h1 : env.healthOk = true) (h2 : env.healthy = true)
    (h3 : env.createOk = true) (h4 : env.sendOk = true) :
    (handleSubmit env st prompt modelToUse).2.2 = .success ∧
    (handleSubmit env st prompt modelToUse).1.conversation =
      [⟨.user, prompt⟩,
        ⟨.assistant,
          if extractTextFromParts env.responseParts ≠ "" then
            extractTextFromParts env.responseParts
          else "No response received"⟩] := by
  simp [handleSubmit, hp, h1, h2, h3, h4]

theorem c2_witness :
    jsTrim "hi" ≠ "" ∧
    ((handleSubmit { responseParts := [⟨some "text", none, some "ok"⟩] } {} "hi" none).2.2 =
        .success ∧
      (handleSubmit { responseParts := [⟨some "text", none, some "ok"⟩] } {} "hi" none).1.conversation =
        [⟨.user, "hi"⟩,
          ⟨.assistant,
            if extractTextFromParts [⟨some "text", none, some "ok"⟩] ≠ "" then
              extractTextFromParts [⟨some "text", none, some "ok"⟩]
            else "No response received"⟩]) :=
  ⟨by decide,
    c2_startConversationTwoEntries { responseParts := [⟨some "text", none, some "ok"⟩] } {}
      "hi" none (by decide) rfl rfl rfl rfl⟩

/-- Claim C3: for every prompt that is blank after trimming, the
start-conversation operation leaves the state untouched (no session, same
transcript), produces no events at all — in particular zero network
calls — and reports a validation failure. -/
theorem c3_blankPromptNoNetwork (env : MockServer) (st : AskState)
    (prompt : String) (modelToUse : Option String) (hp : jsTrim prompt = "") :
    handleSubmit env st prompt modelToUse = (st, [], .validationFailure) ∧
    netCallsOf (handleSubmit env st prompt modelToUse).2.1 = [] := by
  constructor
  · simp [handleSubmit, hp]
  · simp [handleSubmit, hp, netCallsOf]

theorem c3_witness :
    jsTrim "   " = "" ∧
    (handleSubmit {} {} "   " none = ({}, [], .validationFailure) ∧
      netCallsOf (handleSubmit {} {} "   " none).2.1 = []) :=
  ⟨by decide, c3_blankPromptNoNetwork {} {} "   " none (by decide)⟩

/-- Claim C9, counterexample to the claim as stated: for the prompt
`"hello"` (length ≤ 50) the session is created with title
`"Raycast: hello"`, which is not equal to the prompt (and not a prefix of
it), refuting "for every prompt of length at most 50 the created
session's title equals the prompt". -/
theorem c9_counterexample :
    ("hello" : String).length ≤ 50 ∧
    createTitles (handleSubmit {} {} "hello" none).2.1 = [some "Raycast: hello"] ∧
    some ("Raycast: hello" : String) ≠ some ("hello" : String) := by
  refine ⟨by decide, by decide, by decide⟩

/-- Claim C9, amended: for every non-blank prompt, when the server is
reachable and healthy, the start-conversation operation issues exactly one
create-session call, whose title is the fixed marker `"Raycast: "`
followed by the truncated (≤ 50-character) prefix of the prompt; in
particular, for prompts of at most 50 characters the title is
`"Raycast: "` followed by the whole prompt. -/
theorem c9_sessionTitleAmended (env : MockServer) (st : AskState)
    (prompt : String) (modelToUse : Option String)
    (hp : jsTrim prompt ≠ "") (h1 : env.healthOk = true) (h2 : env.healthy = true) :
    createTitles (handleSubmit env st prompt modelToUse).2.1 =
      [some ("Raycast: " ++ jsSliceTo prompt 50)] ∧
    (prompt.data.length ≤ 50 →
      createTitles (handleSubmit env st prompt modelToUse).2.1 =
        [some ("Raycast: " ++ prompt)]) := by
  have key : createTitles (handleSubmit env st prompt modelToUse).2.1 =
      [some ("Raycast: " ++ jsSliceTo prompt 50)] := by
    cases hc : env.createOk <;> cases hs : env.sendOk <;>
      simp [handleSubmit, hp, h1, h2, hc, hs, createTitles]
  refine ⟨key, fun hlen => ?_⟩
  have hslice : jsSliceTo prompt 50 = prompt := by
    unfold jsSliceTo
    rw [List.take_of_length_le hlen]
  rw [key, hslice]

theorem c9_witness :
    jsTrim "hello" ≠ "" ∧ ("hello" : String).data.length ≤ 50 ∧
    (createTitles (handleSubmit {} {} "hello" none).2.1 =
        [some ("Raycast: " ++ jsSliceTo "hello" 50)] ∧
      (("hello" : String).data.length ≤ 50 →
        createTitles (handleSubmit {} {} "hello" none).2.1 =
          [some ("Raycast: " ++ "hello")])) :=
  ⟨by decide, by decide,
    c9_sessionTitleAmended {} {} "hello" none (by decide) rfl rfl⟩

/-- Claim C8: for every continue-conversation invocation with a non-blank
prompt (and an active session), the user entry is appended to the
in-memory transcript before the send-message network call (the trace
starts with the conversation write, then the call); if the send fails the
transcript still contains the appended user entry (no rollback) and the
error is surfaced; the assistant entry is appended only after a
successful response. -/
theorem c8_optimisticAppendNoRollback (env : MockServer) (st : AskState)
    (prompt : String) (modelStr : Option String) (sess : Session)
    (hsess : st.currentSession = some sess) (hp : jsTrim prompt ≠ "") :
    ((continueConversation env st prompt modelStr).2.1.take 2 =
      [.setConversation (st.conversation ++ [⟨.user, prompt⟩]),
        .net (.sendMessage sess.id prompt (jsModelObj modelStr))]) ∧
    (env.sendOk = false →
      (continueConversation env st prompt modelStr).1.conversation =
        st.conversation ++ [⟨.user, prompt⟩] ∧
      (continueConversation env st prompt modelStr).2.2 =
        .errorMsg "Failed to send message" ∧
      (continueConversation env st prompt modelStr).2.1 =
        [.setConversation (st.conversation ++ [⟨.user, prompt⟩]),
          .net (.sendMessage sess.id prompt (jsModelObj modelStr))]) ∧
    (env.sendOk = true →
      (continueConversation env st prompt modelStr).1.conversation =
        st.conversation ++ [⟨.user, prompt⟩,
          ⟨.assistant,
            if extractTextFromParts env.responseParts ≠ "" then
              extractTextFromParts env.responseParts
            else "No response"⟩] ∧
      (continueConversation env st prompt modelStr).2.2 = .success) := by
  cases hs : env.sendOk <;>
    simp [continueConversation, sendMessageFlow, hp, hsess, hs]

theorem c8_witness :
    ({ conversation := [⟨.user, "a"⟩], currentSession := some ⟨"sid", none, 0, 0⟩ } :
        AskState).currentSession = some ⟨"sid", none, 0, 0⟩ ∧
    jsTrim "hi" ≠ "" ∧
    (((continueConversation { sendOk := false }
          { conversation := [⟨.user, "a"⟩], currentSession := some ⟨"sid", none, 0, 0⟩ }
          "hi" none).2.1.take 2 =
        [.setConversation ([⟨.user, "a"⟩] ++ [⟨.user, "hi"⟩]),
          .net (.sendMessage "sid" "hi" (jsModelObj none))]) ∧
      (({ sendOk := false } : MockServer).sendOk = false →
        (continueConversation { sendOk := false }
            { conversation := [⟨.user, "a"⟩], currentSession := some ⟨"sid", none, 0, 0⟩ }
            "hi" none).1.conversation = [⟨.user, "a"⟩] ++ [⟨.user, "hi"⟩] ∧
        (continueConversation { sendOk := false }
            { conversation := [⟨.user, "a"⟩], currentSession := some ⟨"sid", none, 0, 0⟩ }
            "hi" none).2.2 = .errorMsg "Failed to send message" ∧
        (continueConversation { sendOk := false }
            { conversation := [⟨.user, "a"⟩], currentSession := some ⟨"sid", none, 0, 0⟩ }
            "hi" none).2.1 =
          [.setConversation ([⟨.user, "a"⟩] ++ [⟨.user, "hi"⟩]),
            .net (.sendMessage "sid" "hi" (jsModelObj none))]) ∧
      (({ sendOk := false } : MockServer).sendOk = true →
        (continueConversation { sendOk := false }
            { conversation := [⟨.user, "a"⟩], currentSession := some ⟨"sid", none, 0, 0⟩ }
            "hi" none).1.conversation =
          [⟨.user, "a"⟩] ++ [⟨.user, "hi"⟩,
            ⟨.assistant,
              if extractTextFromParts ({ sendOk := false } : MockServer).responseParts ≠ "" then
                extractTextFromParts ({ sendOk := false } : MockServer).responseParts
              else "No response"⟩] ∧
        (continueConversation { sendOk := false }
            { conversation := [⟨.user, "a"⟩], currentSession := some ⟨"sid", none, 0, 0⟩ }
            "hi" none).2.2 = .success)) :=
  ⟨rfl, by decide,
    c8_optimisticAppendNoRollback { sendOk := false }
      { conversation := [⟨.user, "a"⟩], currentSession := some ⟨"sid", none, 0, 0⟩ }
      "hi" none ⟨"sid", none, 0, 0⟩ rfl (by decide)⟩

/-- Claim C5, counterexample to the claim as stated: with one provider
`A` (models `m1`, `m2`) and a CONFIGURED default entry mapping `A` to the
empty string, the claim's rule ("concatenate with the configured default")
yields `"A/"`, but the code treats the empty default as falsy and computes
`"A/m1"`. -/
theorem c5_counterexample :
    fetchProvidersSelection
        ⟨[⟨"A", "A", [("m1", ⟨"m1", "M1"⟩), ("m2", ⟨"m2", "M2"⟩)]⟩], [("A", "")]⟩ =
      some "A/m1" ∧
    claimSelectionC5
        ⟨[⟨"A", "A", [("m1", ⟨"m1", "M1"⟩), ("m2", ⟨"m2", "M2"⟩)]⟩], [("A", "")]⟩ =
      some "A/" ∧
    fetchProvidersSelection
        ⟨[⟨"A", "A", [("m1", ⟨"m1", "M1"⟩), ("m2", ⟨"m2", "M2"⟩)]⟩], [("A", "")]⟩ ≠
      claimSelectionC5
        ⟨[⟨"A", "A", [("m1", ⟨"m1", "M1"⟩), ("m2", ⟨"m2", "M2"⟩)]⟩], [("A", "")]⟩ := by
  refine ⟨by decide, by decide, by decide⟩

/-- Claim C5, amended: for every provider directory response containing at
least one provider, the computed selection is `providerID/modelID` for the
first provider, using its configured default model identifier when that
entry is present and non-empty, and otherwise (entry absent or empty) the
first model identifier in the provider's model mapping, whenever that
mapping is non-empty. -/
theorem c5_defaultModelAmended (r : ProvidersResponse) (p : Provider)
    (rest : List Provider) (hp : r.providers = p :: rest) :
    (∀ d, lookupStr r.defaultMap p.id = some d → d ≠ "" →
      fetchProvidersSelection r = some (p.id ++ "/" ++ d)) ∧
    (lookupStr r.defaultMap p.id = none ∨ lookupStr r.defaultMap p.id = some "" →
      ∀ k rest2, p.models.map (fun kv => kv.1) = k :: rest2 →
        fetchProvidersSelection r = some (p.id ++ "/" ++ k)) := by
  constructor
  · intro d hd hne
    simp [fetchProvidersSelection, hp, hd, jsOr, optTruthy, hne, jsToString]
  · rintro (hd | hd) k rest2 hk <;>
      simp [fetchProvidersSelection, hp, hd, hk, jsOr, optTruthy, jsToString]

theorem c5_witness :
    (⟨[⟨"A", "A", [("m1", ⟨"m1", "M1"⟩), ("m2", ⟨"m2", "M2"⟩)]⟩], []⟩ :
        ProvidersResponse).providers =
      ⟨"A", "A", [("m1", ⟨"m1", "M1"⟩), ("m2", ⟨"m2", "M2"⟩)]⟩ :: [] ∧
    lookupStr [] "A" = none ∧
    ([("m1", (⟨"m1", "M1"⟩ : ModelInfo)), ("m2", ⟨"m2", "M2"⟩)].map (fun kv => kv.1)) =
      "m1" :: ["m2"] ∧
    fetchProvidersSelection
        ⟨[⟨"A", "A", [("m1", ⟨"m1", "M1"⟩), ("m2", ⟨"m2", "M2"⟩)]⟩], []⟩ =
      some ("A" ++ "/" ++ "m1") :=
  ⟨rfl, rfl, rfl,
    (c5_defaultModelAmended
        ⟨[⟨"A", "A", [("m1", ⟨"m1", "M1"⟩), ("m2", ⟨"m2", "M2"⟩)]⟩], []⟩
        ⟨"A", "A", [("m1", ⟨"m1", "M1"⟩), ("m2", ⟨"m2", "M2"⟩)]⟩ [] rfl).2
      (Or.inl rfl) "m1" ["m2"] rfl⟩

/-- Claim C6: when a shared-secret credential is configured (present and
non-empty), every transport operation's request carries an `Authorization`
header whose value is `Basic ` followed by the base64 encoding of the
UTF-8 bytes of `opencode:<secret>`; when no secret is configured (absent
or empty), no `Authorization` header is sent on any request. -/
theorem c6_authorizationHeader (op : ApiOperation) (prefs : Preferences) :
    (∀ pw, prefs.serverPassword = some pw → pw ≠ "" →
      lookupHeader "Authorization" (operationHeaders op prefs) =
        some ("Basic " ++ base64OfString ("opencode:" ++ pw))) ∧
    (prefs.serverPassword = none ∨ prefs.serverPassword = some "" →
      lookupHeader "Authorization" (operationHeaders op prefs) = none) := by
  have hop : operationHeaders op prefs = getHeaders prefs := by cases op <;> rfl
  constructor
  · intro pw hpw hne
    simp [hop, getHeaders, hpw, hne, lookupHeader, List.find?]
  · rintro (h | h) <;> simp [hop, getHeaders, h, lookupHeader, List.find?]

theorem c6_witness :
    (⟨"", "", some "s3cret"⟩ : Preferences).serverPassword = some "s3cret" ∧
    ("s3cret" : String) ≠ "" ∧
    lookupHeader "Authorization" (operationHeaders .checkHealth ⟨"", "", some "s3cret"⟩) =
      some ("Basic " ++ base64OfString ("opencode:" ++ "s3cret")) ∧
    base64OfString ("opencode:" ++ "s3cret") = "b3BlbmNvZGU6czNjcmV0" ∧
    lookupHeader "Authorization" (operationHeaders .getMessages ⟨"", "", none⟩) = none :=
  ⟨rfl, by decide,
    (c6_authorizationHeader .checkHealth ⟨"", "", some "s3cret"⟩).1 "s3cret" rfl (by decide),
    by decide,
    (c6_authorizationHeader .getMessages ⟨"", "", none⟩).2 (Or.inl rfl)⟩

/-- Claim C7: for every session identifier, `getMessages` with `limit = 0`
builds exactly the same URL as `getMessages` with no limit supplied (the
two requests are identical, since headers do not depend on the limit);
the `limit` query parameter is appended exactly when the supplied value is
present and truthy (non-zero). -/
theorem c7_limitZeroSameUrl (prefs : Preferences) (sessionId : String) :
    getMessagesUrl prefs sessionId (some 0) = getMessagesUrl prefs sessionId none ∧
    (∀ n : Int, n ≠ 0 →
      getMessagesUrl prefs sessionId (some n) =
        getMessagesUrl prefs sessionId none ++ "?limit=" ++ toString n) := by
  constructor
  · simp [getMessagesUrl]
  · intro n hn
    simp [getMessagesUrl, hn]

theorem c7_witness :
    ((5 : Int) ≠ 0) ∧
    (getMessagesUrl ⟨"", "", none⟩ "abc" (some 0) = getMessagesUrl ⟨"", "", none⟩ "abc" none ∧
      getMessagesUrl ⟨"", "", none⟩ "abc" (some 5) =
        getMessagesUrl ⟨"", "", none⟩ "abc" none ++ "?limit=" ++ toString (5 : Int)) :=
  ⟨by decide,
    (c7_limitZeroSameUrl ⟨"", "", none⟩ "abc").1,
    (c7_limitZeroSameUrl ⟨"", "", none⟩ "abc").2 5 (by decide)⟩
